import Mathlib

/-!
Shallow embedding of the rexolve-backend sources.

`src/server.js` is a word-list answer formatter behind `POST /ask-doubt`;
`src/server.broken.js` (first variant) is the doubt-solver backend with a
SQLite store (Doubts, DailyTasks, WeakTopics tables).

JavaScript strings are embedded as Lean `String`; the source only ever
matches ASCII phrases and patterns, so case mapping is embedded with the
ASCII `Char.toLower` (which agrees with JS `toLowerCase` on ASCII).
SQLite rows are embedded as Lean structures with explicit autoincrement
ids; result sets without `ORDER BY` are read in rowid (insertion) order.
-/

/-- Whitespace class of the JS regexp `\s` (the Unicode set used by
`split(/\s+/)` and the `\s+` in the extraction patterns). -/
def isJsWs (c : Char) : Bool :=
  c = ' ' || c = '\t' || c = '\n' || c.toNat = 0x0b || c.toNat = 0x0c || c = '\r' ||
  c.toNat = 0xa0 || c.toNat = 0x1680 || (0x2000 ≤ c.toNat && c.toNat ≤ 0x200a) ||
  c.toNat = 0x2028 || c.toNat = 0x2029 || c.toNat = 0x202f || c.toNat = 0x205f ||
  c.toNat = 0x3000 || c.toNat = 0xfeff

/-- Character class `[a-zA-Z]` of the `extractWords` regexp. -/
def isAsciiLetter (c : Char) : Bool :=
  ('a' ≤ c && c ≤ 'z') || ('A' ≤ c && c ≤ 'Z')

/-- Character class `\d`, i.e. `[0-9]`. -/
def isAsciiDigit (c : Char) : Bool :=
  '0' ≤ c && c ≤ '9'

/-- Lower-case a string character-wise (JS `String.prototype.toLowerCase`
restricted to the ASCII range, which is all the source ever matches on). -/
def lowerStr (s : String) : String :=
  ⟨s.data.map Char.toLower⟩

/-- JS `String.prototype.startsWith`. -/
def strStartsWith (s p : String) : Bool :=
  p.data.isPrefixOf s.data

/-- Substring containment on character lists (JS `String.prototype.includes`). -/
def containsSub (hay needle : List Char) : Bool :=
  match hay with
  | [] => needle.isEmpty
  | _ :: cs => needle.isPrefixOf hay || containsSub cs needle

/-- Case-insensitive match of a literal pattern at the head of the input,
returning the rest of the input on success (ASCII folding, as in the `i`
regexp flag applied to the ASCII literals of the source patterns). -/
def stripLitCI : List Char → List Char → Option (List Char)
  | [], l => some l
  | _ :: _, [] => none
  | p :: ps, c :: cs => if c.toLower = p.toLower then stripLitCI ps cs else none

/-- Helper for splitting on whitespace runs: accumulates the current word
(reversed) and emits it at each whitespace boundary. -/
def splitWsAux : List Char → List Char → List (List Char)
  | [], acc => if acc.isEmpty then [] else [acc.reverse]
  | c :: cs, acc =>
    if isJsWs c then
      if acc.isEmpty then splitWsAux cs [] else acc.reverse :: splitWsAux cs []
    else splitWsAux cs (c :: acc)

/-- Split a character list into its maximal runs of non-whitespace
characters (JS `split(/\s+/)` followed by `filter(Boolean)`). -/
def splitWs (l : List Char) : List (List Char) :=
  splitWsAux l []

/-! Text extraction utilities of `src/server.js` (lines 25-53). -/

/-- Embeds `wantsWordList` of `src/server.js`: lower-case the text and test
membership of each of the five fixed phrases. -/
def wantsWordList (text : String) : Bool :=
  let t := text.data.map Char.toLower
  containsSub t "only words".data || containsSub t "just words".data ||
  containsSub t "not a passage".data || containsSub t "not a paragraph".data ||
  containsSub t "no explanation".data

/-- Embeds `extractWords` of `src/server.js`: replace every character
outside `[a-zA-Z\s]` by a space, split on whitespace runs, drop empties. -/
def extractWords (text : String) : List String :=
  let cleaned := text.data.map (fun c => if isAsciiLetter c || isJsWs c then c else ' ')
  (splitWs cleaned).map (fun l => ⟨l⟩)

/-- Numeric value of a digit run (JS `parseInt(digits, 10)`). -/
def digitsToNat (l : List Char) : Nat :=
  l.foldl (fun n c => 10 * n + (c.toNat - '0'.toNat)) 0

/-- Match of the regexp `(\d+)\s+words?` anchored at the head of the input:
a maximal digit run, at least one whitespace character, then the literal
`word` case-insensitively (the optional `s` does not affect the capture). -/
def matchCountAt (l : List Char) : Option Nat :=
  let digits := l.takeWhile isAsciiDigit
  if digits.isEmpty then none
  else
    let rest := l.drop digits.length
    let ws := rest.takeWhile isJsWs
    if ws.isEmpty then none
    else
      match stripLitCI "word".data (rest.drop ws.length) with
      | some _ => some (digitsToNat digits)
      | none => none

/-- Leftmost-match search: try the anchored matcher at every suffix, in
order (the scan order of a JS regexp `match`). -/
def scanFirst {α : Type} (f : List Char → Option α) : List Char → Option α
  | [] => f []
  | c :: cs =>
    match f (c :: cs) with
    | some x => some x
    | none => scanFirst f cs

/-- Embeds `extractRequestedCount` of `src/server.js`: first match of
`(\d+)\s+words?` (case-insensitive), parsed base 10; `none` if absent. -/
def extractRequestedCount (text : String) : Option Nat :=
  scanFirst matchCountAt text.data

/-- Match of the regexp `starting with\s+([a-z])` (with the `i` flag)
anchored at the head of the input, returning the captured letter
lower-cased as the source does with `match[1].toLowerCase()`. -/
def matchLetterAt (l : List Char) : Option Char :=
  match stripLitCI "starting with".data l with
  | none => none
  | some rest =>
    let ws := rest.takeWhile isJsWs
    if ws.isEmpty then none
    else
      match rest.drop ws.length with
      | [] => none
      | c :: _ => if isAsciiLetter c then some c.toLower else none

/-- Embeds `extractStartingLetter` of `src/server.js`: first match of
`starting with\s+([a-z])` (case-insensitive), letter lower-cased. -/
def extractStartingLetter (text : String) : Option Char :=
  scanFirst matchLetterAt text.data

/-! Format enforcement of `src/server.js` (route body, lines 110-134). -/

/-- Insertion-order deduplication with an accumulator of already seen
elements (JS `[...new Set(xs)]` keeps the first occurrence of each value). -/
def dedupAux (seen : List String) : List String → List String
  | [] => []
  | x :: xs => if x ∈ seen then dedupAux seen xs else x :: dedupAux (x :: seen) xs

/-- Embeds `[...new Set(xs)]`: first-occurrence-order deduplication. -/
def jsSetDedup (l : List String) : List String :=
  dedupAux [] l

/-- Words of the raw answer after the optional starting-letter filter
(`words.filter((w) => w.toLowerCase().startsWith(letter))`). -/
def filteredWords (rawAnswer triggering : String) : List String :=
  match extractStartingLetter triggering with
  | some letter =>
    (extractWords rawAnswer).filter (fun w => strStartsWith (lowerStr w) ⟨[letter]⟩)
  | none => extractWords rawAnswer

/-- The deduplicated lower-cased word list
(`[...new Set(words.map((w) => w.toLowerCase()))]`). -/
def uniqueWords (rawAnswer triggering : String) : List String :=
  jsSetDedup ((filteredWords rawAnswer triggering).map lowerStr)

/-- Final word list after the requested-count truncation; the JS guard
`if (requestedCount)` skips the `slice` when the count is absent or `0`
(zero is falsy). -/
def formatAnswerList (rawAnswer triggering : String) : List String :=
  match extractRequestedCount triggering with
  | some n => if n = 0 then uniqueWords rawAnswer triggering
              else (uniqueWords rawAnswer triggering).take n
  | none => uniqueWords rawAnswer triggering

/-- The whole format-enforcement block of `src/server.js`: rewrite the
answer to the joined word list when the triggering message asks for one,
otherwise return it unchanged. -/
def formatAnswer (rawAnswer triggering : String) : String :=
  if wantsWordList triggering then
    String.intercalate ", " (formatAnswerList rawAnswer triggering)
  else rawAnswer

/-! Data model of `src/server.broken.js` (first variant): the three SQLite
tables, each row carrying its autoincrement rowid. -/

/-- Row of the `Doubts` table. `question_text` and `image_url` are nullable
(`Option`); `steps` holds the `JSON.stringify` serialization. -/
structure Doubt where
  id : Nat
  question_text : Option String
  image_url : Option String
  answer : String
  steps : String
  subject : String
  topic : String
  timestamp : String
deriving Repr, DecidableEq

/-- Row of the `DailyTasks` table. -/
structure DailyTask where
  id : Nat
  date : String
  task_type : String
  topic : String
  question_text : String
  is_completed : Bool
deriving Repr, DecidableEq

/-- Row of the `WeakTopics` table. -/
structure WeakTopic where
  id : Nat
  topic : String
  score : Nat
  last_updated : String
deriving Repr, DecidableEq

/-- State of the SQLite database: the three tables in rowid order,
together with the next autoincrement id of each. -/
structure Db where
  doubts : List Doubt
  dailyTasks : List DailyTask
  weakTopics : List WeakTopic
  nextDoubtId : Nat
  nextTaskId : Nat
  nextWeakId : Nat
deriving Repr, DecidableEq

/-- Freshly created database (autoincrement ids start at 1). -/
def emptyDb : Db :=
  { doubts := [], dailyTasks := [], weakTopics := [],
    nextDoubtId := 1, nextTaskId := 1, nextWeakId := 1 }

/-- JS `x || dflt` on a nullable string: `null`/`undefined` and the empty
string are falsy. -/
def jsOrString (v : Option String) (dflt : String) : String :=
  match v with
  | some s => if s = "" then dflt else s
  | none => dflt

/-- JS `s || dflt` on a plain string: only the empty string is falsy. -/
def jsOrStr (s dflt : String) : String :=
  if s = "" then dflt else s

/-- JS `JSON.stringify` on an array of strings (no escaping is modelled;
the source only ever serializes the constant empty array). -/
def jsonStringifyList (l : List String) : String :=
  "[" ++ String.intercalate "," (l.map (fun s => "\"" ++ s ++ "\"")) ++ "]"

/-- Chat message of the request body; `content` is nullable. -/
structure ChatMessage where
  role : String
  content : Option String
deriving Repr, DecidableEq

/-- Answer object assembled by `getAIResponse` in `src/server.broken.js`. -/
structure AnswerR where
  subject : String
  topic : String
  answer : String
  steps : List String
  followUpQuestion : String
deriving Repr, DecidableEq

/-- Embeds `getAIResponse` of `src/server.broken.js` (lines 117-142): the
model completion is passed in as the optional content string of
`completion.choices[0]?.message?.content`, and the returned object carries
the constant subject/topic `"General"`, empty steps and empty follow-up. -/
def getAIResponse (content : Option String) : AnswerR :=
  { subject := "General", topic := "General",
    answer := jsOrString content "Sorry, I could not generate an answer.",
    steps := [], followUpQuestion := "" }

/-- SQLite `SELECT * FROM WeakTopics WHERE topic = ?` read by `db.get`:
first matching row in rowid order (`=` on TEXT is case-sensitive). -/
def findWeakTopic (db : Db) (t : String) : Option WeakTopic :=
  db.weakTopics.find? (fun r => r.topic == t)

/-- Embeds the weak-topic update of the `/ask-doubt` route
(`src/server.broken.js` lines 191-208): insert the topic with score 1 when
absent, otherwise `UPDATE ... SET score = score + 1, last_updated = ?
WHERE id = ?` on the row found. -/
def recordOccurrence (db : Db) (t now : String) : Db :=
  match findWeakTopic db t with
  | none =>
    { db with weakTopics := db.weakTopics ++ [⟨db.nextWeakId, t, 1, now⟩],
              nextWeakId := db.nextWeakId + 1 }
  | some r =>
    { db with weakTopics := db.weakTopics.map (fun q =>
        if q.id = r.id then { q with score := q.score + 1, last_updated := now } else q) }

/-- Descending insertion by score, keeping earlier rows first on ties. -/
def insertByScore (x : WeakTopic) : List WeakTopic → List WeakTopic
  | [] => [x]
  | y :: ys => if x.score ≥ y.score then x :: y :: ys else y :: insertByScore x ys

/-- SQLite `ORDER BY score DESC` on the `WeakTopics` table (stable
insertion sort; tie order among equal scores is unspecified in SQLite). -/
def sortByScoreDesc : List WeakTopic → List WeakTopic
  | [] => []
  | x :: xs => insertByScore x (sortByScoreDesc xs)

/-- The scorer read `SELECT * FROM WeakTopics ORDER BY score DESC LIMIT n`
(the planner uses `n = 3`, the `/weak-topics` route `n = 5`). -/
def topTopics (db : Db) (n : Nat) : List WeakTopic :=
  (sortByScoreDesc db.weakTopics).take n

/-- Rows of the `DailyTasks` table for a given date, in rowid order
(`SELECT * FROM DailyTasks WHERE date = ?`). -/
def tasksFor (db : Db) (d : String) : List DailyTask :=
  db.dailyTasks.filter (fun t => t.date == d)

/-- The batch of 5 task descriptions (task type, topic, question text)
built by `ensureDailyTasks`: 3 practice tasks cycling through the topics
by index modulo length, then 1 revision and 1 concept task on the first
topic. -/
def buildTaskBatch (topics : List String) : List (String × String × String) :=
  ((List.range 3).map (fun i =>
    let topic := topics.getD (i % topics.length) ""
    ("practice", topic, "Practice question on " ++ topic ++ " #" ++ toString (i + 1))))
  ++ [("revision", topics.getD 0 "", "Revision question on " ++ topics.getD 0 ""),
      ("concept", topics.getD 0 "", "Read a short concept note on " ++ topics.getD 0 "")]

/-- Embeds `ensureDailyTasks` of `src/server.broken.js` (lines 257-306),
with the ambient current day passed in as `today`: if 5 or more tasks
already exist for the day they are returned unchanged; otherwise a batch
of 5 new tasks is built from the top-3 weak topics (falling back to
`["General"]`), inserted, and the day's rows are re-read and returned.
The topic list used for the batch (`weakTopics.map(t => t.topic)` with the
`["General"]` fallback): -/
def plannerTopics (db : Db) : List String :=
  if (topTopics db 3).length > 0 then (topTopics db 3).map WeakTopic.topic
  else ["General"]

/-- The 5 rows inserted by one generation run, with their autoincrement
ids (the insert loop assigns consecutive rowids from `nextTaskId`). -/
def newDailyRows (db : Db) (today : String) : List DailyTask :=
  (buildTaskBatch (plannerTopics db)).enum.map (fun p =>
    { id := db.nextTaskId + p.1, date := today, task_type := p.2.1,
      topic := p.2.2.1, question_text := p.2.2.2, is_completed := false })

def ensureDailyTasks (db : Db) (today : String) : List DailyTask × Db :=
  if 5 ≤ (tasksFor db today).length then (tasksFor db today, db)
  else
    let db2 := { db with
      dailyTasks := db.dailyTasks ++ newDailyRows db today,
      nextTaskId := db.nextTaskId + (buildTaskBatch (plannerTopics db)).length }
    (tasksFor db2 today, db2)

/-- Outcome of a route handler, as far as the claims observe it: either an
HTTP 400 rejection with its error string, or the JSON success payload. -/
inductive AskResult where
  | badRequest (error : String)
  | ok (subject topic answer : String) (steps : List String) (followUpQuestion : String)
deriving Repr, DecidableEq

/-- Embeds the `POST /ask-doubt` handler of `src/server.broken.js`
(lines 165-221): validation, AI call (its optional completion content is
passed in as `aiContent`), `Doubts` insert, weak-topic update, response.
`now` stands for the ISO timestamp taken during the request. -/
def askDoubt (db : Db) (messages : Option (List ChatMessage))
    (image_url : Option String) (aiContent : Option String) (now : String) :
    AskResult × Db :=
  match messages with
  | none => (.badRequest "Messages required", db)
  | some msgs =>
    if msgs.length = 0 then (.badRequest "Messages required", db)
    else
      let result := getAIResponse aiContent
      let lastContent := (msgs.getLastD ⟨"", none⟩).content
      let db1 := { db with
        doubts := db.doubts ++ [{
          id := db.nextDoubtId,
          question_text := match lastContent with
            | some s => if s = "" then none else some s
            | none => none,
          image_url := image_url,
          answer := result.answer,
          steps := jsonStringifyList result.steps,
          subject := jsOrStr result.subject "General",
          topic := jsOrStr result.topic "General",
          timestamp := now }],
        nextDoubtId := db.nextDoubtId + 1 }
      let db2 := recordOccurrence db1 (jsOrStr result.topic "General") now
      (.ok (jsOrStr result.subject "General") (jsOrStr result.topic "General")
        result.answer result.steps (jsOrStr result.followUpQuestion ""), db2)

/-- Outcome of the `POST /complete-task` handler. -/
inductive TaskResult where
  | badRequest (error : String)
  | success
deriving Repr, DecidableEq

/-- Embeds the `POST /complete-task` handler of `src/server.broken.js`
(lines 321-338): a missing or falsy `taskId` (JS `!taskId`, so absent or
`0`) is rejected with 400; otherwise `UPDATE DailyTasks SET is_completed
= 1 WHERE id = ?` runs (possibly matching no row) and `{success: true}`
is returned. -/
def completeTask (db : Db) (taskId : Option Nat) : TaskResult × Db :=
  match taskId with
  | none => (.badRequest "taskId required", db)
  | some n =>
    if n = 0 then (.badRequest "taskId required", db)
    else
      (.success,
       { db with dailyTasks := db.dailyTasks.map (fun t =>
           if t.id = n then { t with is_completed := true } else t) })

/-! The triggering-message selection of `src/server.js` (lines 67-68). -/

/-- Embeds the `lastUserMessage` binding of `src/server.js`:
`messages[messages.length - 1].content || ""` — the content of the LAST
entry of the array, whatever its role. -/
def lastUserMessage (messages : List ChatMessage) : String :=
  jsOrString (messages.getLastD ⟨"", none⟩).content ""

/-- Modelled from the spec: the "triggering message" is the content of the
last entry whose role is `user` (`src/server.js` has no such role filter;
this definition follows the spec's words for comparison). -/
def lastUserRoleContent (messages : List ChatMessage) : Option String :=
  (messages.reverse.find? (fun m => m.role == "user")).map
    (fun m => jsOrString m.content "")

/-! Helper lemmas about the character-level case map. -/

/-- Characters below the surrogate range round-trip through `Char.ofNat`. -/
theorem char_toNat_ofNat {n : Nat} (h : n < 0xd800) : (Char.ofNat n).toNat = n := by
  rw [Char.ofNat, dif_pos (Or.inl h)]
  rfl

/-- On an ASCII upper-case letter, `Char.toLower` adds 32 to the code. -/
theorem toLower_toNat_of_upper {c : Char} (h1 : 65 ≤ c.toNat) (h2 : c.toNat ≤ 90) :
    c.toLower.toNat = c.toNat + 32 := by
  unfold Char.toLower
  rw [if_pos ⟨h1, h2⟩]
  exact char_toNat_ofNat (by omega)

/-- Off the ASCII upper-case range, `Char.toLower` is the identity. -/
theorem toLower_eq_self {c : Char} (h : ¬(65 ≤ c.toNat ∧ c.toNat ≤ 90)) :
    c.toLower = c := by
  unfold Char.toLower
  rw [if_neg h]

/-- The character-level case map is idempotent. -/
theorem toLower_idem (c : Char) : c.toLower.toLower = c.toLower := by
  by_cases h : 65 ≤ c.toNat ∧ c.toNat ≤ 90
  · have hn := toLower_toNat_of_upper h.1 h.2
    exact toLower_eq_self (by omega)
  · simp [toLower_eq_self h]

/-- The string-level case map is idempotent. -/
theorem lowerStr_idem (s : String) : lowerStr (lowerStr s) = lowerStr s := by
  show String.mk _ = String.mk _
  simp only [lowerStr, List.map_map]
  exact congrArg String.mk (List.map_congr_left (fun a _ => toLower_idem a))

/-! Helper lemmas about the insertion-order deduplication. -/

/-- Elements of the deduplicated list come from the input list. -/
theorem mem_of_mem_dedupAux : ∀ {l seen y}, y ∈ dedupAux seen l → y ∈ l := by
  intro l
  induction l with
  | nil => intro seen y h; simp [dedupAux] at h
  | cons x xs ih =>
    intro seen y h
    unfold dedupAux at h
    split at h
    · exact List.mem_cons_of_mem x (ih h)
    · rcases List.mem_cons.mp h with h1 | h1
      · exact h1 ▸ List.mem_cons_self x xs
      · exact List.mem_cons_of_mem x (ih h1)

/-- Elements already seen are never emitted again. -/
theorem not_mem_dedupAux : ∀ {l seen y}, y ∈ seen → y ∉ dedupAux seen l := by
  intro l
  induction l with
  | nil => intro seen y _ h; simp [dedupAux] at h
  | cons x xs ih =>
    intro seen y hy h
    unfold dedupAux at h
    split at h
    · exact ih hy h
    · next hx =>
      rcases List.mem_cons.mp h with h1 | h1
      · exact hx (h1 ▸ hy)
      · exact ih (List.mem_cons_of_mem x hy) h1

/-- The deduplicated list has no duplicates. -/
theorem nodup_dedupAux : ∀ {l seen}, (dedupAux seen l).Nodup := by
  intro l
  induction l with
  | nil => intro seen; simp [dedupAux]
  | cons x xs ih =>
    intro seen
    unfold dedupAux
    split
    · exact ih
    · exact List.nodup_cons.mpr ⟨not_mem_dedupAux (List.mem_cons_self x seen), ih⟩

/-! Helper lemmas about the format-enforcement pipeline. -/

/-- Every entry of the final word list is the lower-casing of a word that
survived the starting-letter filter. -/
theorem mem_formatAnswerList {raw m y} (h : y ∈ formatAnswerList raw m) :
    y ∈ (filteredWords raw m).map lowerStr := by
  have hu : y ∈ uniqueWords raw m := by
    unfold formatAnswerList at h
    split at h
    · split at h
      · exact h
      · exact List.take_subset _ _ h
    · exact h
  exact mem_of_mem_dedupAux hu

/-- Surviving the starting-letter filter implies being an extracted word. -/
theorem mem_filteredWords_sub {raw m x} (h : x ∈ filteredWords raw m) :
    x ∈ extractWords raw := by
  unfold filteredWords at h
  split at h
  · exact List.mem_of_mem_filter h
  · exact h

/-- Entries of the final word list are fixed by the case map. -/
theorem formatAnswerList_lower {raw m y} (h : y ∈ formatAnswerList raw m) :
    lowerStr y = y := by
  obtain ⟨x, _, rfl⟩ := List.mem_map.mp (mem_formatAnswerList h)
  exact lowerStr_idem x

/-- The final word list has no duplicates. -/
theorem formatAnswerList_nodup (raw m : String) : (formatAnswerList raw m).Nodup := by
  unfold formatAnswerList
  split
  · split
    · exact nodup_dedupAux
    · exact (List.take_sublist _ _).nodup nodup_dedupAux
  · exact nodup_dedupAux

/-- Truncation step when a non-zero requested count was detected. -/
theorem formatAnswerList_count {raw m : String} {n : Nat}
    (hc : extractRequestedCount m = some n) (hn : n ≠ 0) :
    formatAnswerList raw m = (uniqueWords raw m).take n := by
  unfold formatAnswerList
  rw [hc]
  simp [hn]

/-- Truncation step when the detected requested count is `0`: the JS guard
`if (requestedCount)` is falsy, so no truncation happens. -/
theorem formatAnswerList_count0 {raw m : String}
    (hc : extractRequestedCount m = some 0) :
    formatAnswerList raw m = uniqueWords raw m := by
  unfold formatAnswerList
  rw [hc]
  rfl

/-- C1: for any raw answer and a triggering message that asks for a word
list and from which the formatter detects starting letter `b` and
requested count 3, the answer is the ", "-join of the final word list,
every entry of that list starts with `"b"`, it has at most 3 entries, and
no entry repeats case-insensitively. -/
theorem formatter_b3_property (raw m : String)
    (hw : wantsWordList m = true)
    (hl : extractStartingLetter m = some 'b')
    (hc : extractRequestedCount m = some 3) :
    formatAnswer raw m = String.intercalate ", " (formatAnswerList raw m) ∧
    (∀ w ∈ formatAnswerList raw m, strStartsWith w "b" = true) ∧
    (formatAnswerList raw m).length ≤ 3 ∧
    ((formatAnswerList raw m).map lowerStr).Nodup := by
  refine ⟨by simp [formatAnswer, hw], ?_, ?_, ?_⟩
  · intro w hmem
    obtain ⟨x, hx, rfl⟩ := List.mem_map.mp (mem_formatAnswerList hmem)
    unfold filteredWords at hx
    rw [hl] at hx
    have hx2 : x ∈ (extractWords raw).filter
        (fun w => strStartsWith (lowerStr w) ⟨['b']⟩) := hx
    have hp := List.of_mem_filter hx2
    exact hp
  · rw [formatAnswerList_count hc (by decide)]
    exact List.length_take_le 3 _
  · have h1 : (formatAnswerList raw m).map lowerStr = formatAnswerList raw m := by
      rw [List.map_congr_left (fun a ha => formatAnswerList_lower ha)]
      exact List.map_id _
    rw [h1]
    exact formatAnswerList_nodup raw m

/-- Witness for C1 at a concrete raw answer and triggering message. -/
theorem formatter_b3_property_witness :
    formatAnswer "Banana Apple banana Berry Bear Boat"
        "give me 3 words starting with b only words" =
      String.intercalate ", " (formatAnswerList "Banana Apple banana Berry Bear Boat"
        "give me 3 words starting with b only words") ∧
    strStartsWith "banana" "b" = true ∧
    (formatAnswerList "Banana Apple banana Berry Bear Boat"
      "give me 3 words starting with b only words").length ≤ 3 :=
  ⟨(formatter_b3_property _ _ (by decide) (by decide) (by decide)).1,
   (formatter_b3_property "Banana Apple banana Berry Bear Boat"
      "give me 3 words starting with b only words"
      (by decide) (by decide) (by decide)).2.1 "banana" (by decide),
   (formatter_b3_property _ _ (by decide) (by decide) (by decide)).2.2.1⟩

/-- C5 counterexample: the message contains "0 words" (count 0 is
detected) and asks for a word list, yet the formatter result is the full
word list "apple, banana", not the empty string: the JS guard
`if (requestedCount)` treats 0 as falsy and skips the slice. -/
theorem zero_count_counterexample :
    wantsWordList "only words: give me 0 words" = true ∧
    extractRequestedCount "only words: give me 0 words" = some 0 ∧
    formatAnswer "apple banana" "only words: give me 0 words" = "apple, banana" ∧
    formatAnswer "apple banana" "only words: give me 0 words" ≠ "" := by
  refine ⟨by decide, by decide, by decide, by decide⟩

/-- C5 amended: when the triggering message asks for a word list and the
detected requested count is 0, the truncation is skipped (0 is falsy in
the JS guard) and the answer is the full deduplicated word list; it is
empty only when that list is empty. -/
theorem zero_count_skips_truncation (raw m : String)
    (hw : wantsWordList m = true)
    (hc : extractRequestedCount m = some 0) :
    formatAnswer raw m = String.intercalate ", " (uniqueWords raw m) := by
  unfold formatAnswer
  rw [if_pos hw, formatAnswerList_count0 hc]

/-- Witness for the amended C5 at the counterexample input. -/
theorem zero_count_skips_truncation_witness :
    formatAnswer "apple banana" "only words: give me 0 words" =
      String.intercalate ", " (uniqueWords "apple banana" "only words: give me 0 words") :=
  zero_count_skips_truncation "apple banana" "only words: give me 0 words"
    (by decide) (by decide)

/-- C9: when the triggering message asks for a word list, every entry of
the final word list is fully lower-cased (it is fixed by the case map and
is the lower-casing of some extracted word of the raw answer), and the
answer returned is the ", "-join of that list. -/
theorem wordlist_entries_lowercased (raw m : String)
    (hw : wantsWordList m = true) :
    formatAnswer raw m = String.intercalate ", " (formatAnswerList raw m) ∧
    (∀ w ∈ formatAnswerList raw m, lowerStr w = w) ∧
    (∀ w ∈ formatAnswerList raw m, ∃ v ∈ extractWords raw, w = lowerStr v) := by
  refine ⟨by simp [formatAnswer, hw], fun w hw2 => formatAnswerList_lower hw2, ?_⟩
  intro w hmem
  obtain ⟨x, hx, rfl⟩ := List.mem_map.mp (mem_formatAnswerList hmem)
  exact ⟨x, mem_filteredWords_sub hx, rfl⟩

/-- Witness for C9 at a concrete raw answer and triggering message. -/
theorem wordlist_entries_lowercased_witness :
    formatAnswer "Apple BANANA apple" "just words please" =
      String.intercalate ", " (formatAnswerList "Apple BANANA apple" "just words please") ∧
    lowerStr "banana" = "banana" :=
  ⟨(wordlist_entries_lowercased "Apple BANANA apple" "just words please" (by decide)).1,
   (wordlist_entries_lowercased "Apple BANANA apple" "just words please"
      (by decide)).2.1 "banana" (by decide)⟩

/-- C4 (code bug evaluated at its failing input): the `lastUserMessage`
binding of `src/server.js` takes the content of the LAST array entry
regardless of role, so with a conversation whose final entry is an
assistant message, format detection runs on `"ok"` (and finds no word-list
request) instead of on the last user-authored message (which does request
one). -/
theorem lastUserMessage_role_divergence :
    lastUserMessage [⟨"user", some "give me 3 words only words"⟩,
        ⟨"assistant", some "ok"⟩] = "ok" ∧
    lastUserRoleContent [⟨"user", some "give me 3 words only words"⟩,
        ⟨"assistant", some "ok"⟩] = some "give me 3 words only words" ∧
    wantsWordList (lastUserMessage [⟨"user", some "give me 3 words only words"⟩,
        ⟨"assistant", some "ok"⟩]) = false ∧
    wantsWordList "give me 3 words only words" = true := by
  refine ⟨by decide, by decide, by decide, by decide⟩

/-- Insert branch of the scorer: an absent topic is appended with
score 1 and the fresh autoincrement id. -/
theorem recordOccurrence_insert (db : Db) (t now : String)
    (h : findWeakTopic db t = none) :
    recordOccurrence db t now =
      { db with weakTopics := db.weakTopics ++ [⟨db.nextWeakId, t, 1, now⟩],
                nextWeakId := db.nextWeakId + 1 } := by
  unfold recordOccurrence
  rw [h]

/-- Update branch of the scorer: the row found for the topic gets score + 1
and a fresh timestamp, and every other row and every other field (id,
topic, the other tables, the id counter) is untouched. -/
theorem recordOccurrence_update (db : Db) (t now : String) (r : WeakTopic)
    (h : findWeakTopic db t = some r)
    (hids : (db.weakTopics.map WeakTopic.id).Nodup) :
    r.topic = t ∧
    ∃ l1 l2, db.weakTopics = l1 ++ r :: l2 ∧
      (recordOccurrence db t now).weakTopics =
        l1 ++ { r with score := r.score + 1, last_updated := now } :: l2 ∧
      (recordOccurrence db t now).nextWeakId = db.nextWeakId ∧
      (recordOccurrence db t now).doubts = db.doubts ∧
      (recordOccurrence db t now).dailyTasks = db.dailyTasks := by
  have h0 := h
  unfold findWeakTopic at h
  obtain ⟨hp, as, bs, hsplit, hnot⟩ := List.find?_eq_some.mp h
  have hft : r.topic = t := eq_of_beq hp
  rw [hsplit] at hids
  rw [List.map_append, List.map_cons] at hids
  have hcomp := List.nodup_append.mp hids
  have hras : ∀ a ∈ as, a.id ≠ r.id := by
    intro a ha heq
    exact hcomp.2.2 (List.mem_map_of_mem _ ha) (heq ▸ List.mem_cons_self _ _)
  have hrbs : ∀ b ∈ bs, b.id ≠ r.id := by
    intro b hb heq
    exact (List.nodup_cons.mp hcomp.2.1).1 (heq ▸ List.mem_map_of_mem _ hb)
  refine ⟨hft, as, bs, hsplit, ?_, ?_, ?_, ?_⟩
  · simp only [recordOccurrence, h0]
    rw [hsplit, List.map_append, List.map_cons]
    have h1 : as.map (fun q =>
        if q.id = r.id then { q with score := q.score + 1, last_updated := now } else q) = as := by
      rw [List.map_congr_left (fun a ha => if_neg (hras a ha))]
      exact List.map_id _
    have h2 : bs.map (fun q =>
        if q.id = r.id then { q with score := q.score + 1, last_updated := now } else q) = bs := by
      rw [List.map_congr_left (fun b hb => if_neg (hrbs b hb))]
      exact List.map_id _
    rw [h1, h2, if_pos rfl]
  · simp [recordOccurrence, h0]
  · simp [recordOccurrence, h0]
  · simp [recordOccurrence, h0]

/-- Per-topic uniqueness of the weak-topic store is preserved by the
scorer (the insert branch only fires when the topic is absent, and the
update branch changes no topic). -/
theorem recordOccurrence_nodupTopics (db : Db) (t now : String)
    (hnd : (db.weakTopics.map WeakTopic.topic).Nodup) :
    ((recordOccurrence db t now).weakTopics.map WeakTopic.topic).Nodup := by
  unfold recordOccurrence
  cases hfind : findWeakTopic db t with
  | none =>
    simp only []
    rw [List.map_append]
    refine List.nodup_append.mpr ⟨hnd, List.nodup_singleton t, ?_⟩
    intro x hx hx2
    unfold findWeakTopic at hfind
    have hall := List.find?_eq_none.mp hfind
    obtain ⟨q, hq, rfl⟩ := List.mem_map.mp hx
    rcases List.mem_singleton.mp hx2 with h
    exact hall q hq (beq_iff_eq.mpr h)
  | some r =>
    simp only []
    rw [List.map_map]
    have h1 : db.weakTopics.map (WeakTopic.topic ∘ (fun q =>
        if q.id = r.id then { q with score := q.score + 1, last_updated := now } else q)) =
        db.weakTopics.map WeakTopic.topic := by
      refine List.map_congr_left ?_
      intro q hq
      by_cases h : q.id = r.id
      · simp [Function.comp, h]
      · simp [Function.comp, h]
    rw [h1]
    exact hnd

/-- Two occurrences of "Algebra" against the empty store leave "Algebra"
as the single top topic, with score 2. -/
theorem recordOccurrence_algebra (t1 t2 : String) :
    (topTopics (recordOccurrence (recordOccurrence emptyDb "Algebra" t1) "Algebra" t2) 1).map
      WeakTopic.topic = ["Algebra"] ∧
    (topTopics (recordOccurrence (recordOccurrence emptyDb "Algebra" t1) "Algebra" t2) 1).map
      WeakTopic.score = [2] :=
  ⟨rfl, rfl⟩

/-- C3: the weak-topic scorer inserts a fresh record with score 1 when the
exact topic is absent; when present it bumps exactly that record's score
by 1 and refreshes its timestamp, leaving id, topic and all other rows
unchanged; per-topic uniqueness of the store is preserved; and two
occurrences of "Algebra" from the empty store make "Algebra" the top
topic with score 2. -/
theorem recordOccurrence_spec :
    (∀ db t now, findWeakTopic db t = none →
      recordOccurrence db t now =
        { db with weakTopics := db.weakTopics ++ [⟨db.nextWeakId, t, 1, now⟩],
                  nextWeakId := db.nextWeakId + 1 }) ∧
    (∀ db t now r, findWeakTopic db t = some r →
      (db.weakTopics.map WeakTopic.id).Nodup →
      r.topic = t ∧
      ∃ l1 l2, db.weakTopics = l1 ++ r :: l2 ∧
        (recordOccurrence db t now).weakTopics =
          l1 ++ { r with score := r.score + 1, last_updated := now } :: l2 ∧
        (recordOccurrence db t now).nextWeakId = db.nextWeakId ∧
        (recordOccurrence db t now).doubts = db.doubts ∧
        (recordOccurrence db t now).dailyTasks = db.dailyTasks) ∧
    (∀ db t now, (db.weakTopics.map WeakTopic.topic).Nodup →
      ((recordOccurrence db t now).weakTopics.map WeakTopic.topic).Nodup) ∧
    (∀ t1 t2 : String,
      (topTopics (recordOccurrence (recordOccurrence emptyDb "Algebra" t1) "Algebra" t2) 1).map
        WeakTopic.topic = ["Algebra"] ∧
      (topTopics (recordOccurrence (recordOccurrence emptyDb "Algebra" t1) "Algebra" t2) 1).map
        WeakTopic.score = [2]) :=
  ⟨recordOccurrence_insert, recordOccurrence_update, recordOccurrence_nodupTopics,
   recordOccurrence_algebra⟩

/-- Witness for C3: the insert branch, the uniqueness preservation and the
two-occurrences scenario, applied at concrete inputs. -/
theorem recordOccurrence_spec_witness :
    recordOccurrence emptyDb "Algebra" "T" =
      { emptyDb with
        weakTopics := emptyDb.weakTopics ++ [⟨emptyDb.nextWeakId, "Algebra", 1, "T"⟩],
        nextWeakId := emptyDb.nextWeakId + 1 } ∧
    ((recordOccurrence emptyDb "Algebra" "T").weakTopics.map WeakTopic.topic).Nodup ∧
    (WeakTopic.topic ⟨1, "Algebra", 1, "T"⟩ = "Algebra") ∧
    (topTopics (recordOccurrence (recordOccurrence emptyDb "Algebra" "T") "Algebra" "U") 1).map
      WeakTopic.topic = ["Algebra"] :=
  ⟨recordOccurrence_spec.1 emptyDb "Algebra" "T" (by decide),
   recordOccurrence_spec.2.2.1 emptyDb "Algebra" "T" (by decide),
   (recordOccurrence_spec.2.1 (recordOccurrence emptyDb "Algebra" "T") "Algebra" "U"
      ⟨1, "Algebra", 1, "T"⟩ (by decide) (by decide)).1,
   (recordOccurrence_spec.2.2.2 "T" "U").1⟩

/-- Every generated batch has exactly 5 task descriptions (3 practice, 1
revision, 1 concept), whatever the topic list. -/
theorem length_buildTaskBatch (ts : List String) : (buildTaskBatch ts).length = 5 := by
  simp [buildTaskBatch]

/-- Every inserted row carries the generation day as its date. -/
theorem newDailyRows_date {db : Db} {today : String} :
    ∀ x ∈ newDailyRows db today, x.date = today := by
  intro x hx
  obtain ⟨p, _, rfl⟩ := List.mem_map.mp hx
  rfl

/-- One generation run inserts exactly 5 rows. -/
theorem length_newDailyRows (db : Db) (today : String) :
    (newDailyRows db today).length = 5 := by
  simp [newDailyRows, length_buildTaskBatch]

/-- The day filter keeps every freshly inserted row. -/
theorem filter_newDailyRows (db : Db) (D : String) :
    (newDailyRows db D).filter (fun t => t.date == D) = newDailyRows db D :=
  List.filter_eq_self.mpr (fun x hx => beq_iff_eq.mpr (newDailyRows_date x hx))

/-- Quota branch: with 5 or more tasks for the day, the planner returns
the existing rows and leaves the store untouched. -/
theorem ensureDailyTasks_ge5 {db : Db} {D : String} (h : 5 ≤ (tasksFor db D).length) :
    ensureDailyTasks db D = (tasksFor db D, db) := by
  unfold ensureDailyTasks
  rw [if_pos h]

/-- Generation branch: with fewer than 5 tasks for the day, the planner
appends the full fresh batch and returns the old rows followed by it. -/
theorem ensureDailyTasks_lt5 {db : Db} {D : String} (h : ¬ 5 ≤ (tasksFor db D).length) :
    (ensureDailyTasks db D).1 = tasksFor db D ++ newDailyRows db D ∧
    (ensureDailyTasks db D).2.dailyTasks = db.dailyTasks ++ newDailyRows db D ∧
    tasksFor (ensureDailyTasks db D).2 D = tasksFor db D ++ newDailyRows db D := by
  unfold ensureDailyTasks
  rw [if_neg h]
  have hfil : (db.dailyTasks ++ newDailyRows db D).filter (fun t => t.date == D)
      = tasksFor db D ++ newDailyRows db D := by
    rw [List.filter_append, filter_newDailyRows]
    rfl
  exact ⟨hfil, rfl, hfil⟩

/-- C2: once at least 5 tasks exist for a day, `ensureDailyTasks` returns
them unchanged and creates nothing; and starting from a day with no
tasks, calling it twice returns the same 5 tasks both times while the
second call changes nothing. -/
theorem ensureDailyTasks_idempotent :
    (∀ db D, 5 ≤ (tasksFor db D).length →
      ensureDailyTasks db D = (tasksFor db D, db)) ∧
    (∀ db D, tasksFor db D = [] →
      (ensureDailyTasks db D).1.length = 5 ∧
      ensureDailyTasks (ensureDailyTasks db D).2 D =
        ((ensureDailyTasks db D).1, (ensureDailyTasks db D).2)) := by
  refine ⟨fun db D h => ensureDailyTasks_ge5 h, ?_⟩
  intro db D h
  have hlt : ¬ 5 ≤ (tasksFor db D).length := by rw [h]; decide
  obtain ⟨h1, _, h3⟩ := ensureDailyTasks_lt5 hlt
  constructor
  · rw [h1, h, List.nil_append, length_newDailyRows]
  · have hge : 5 ≤ (tasksFor (ensureDailyTasks db D).2 D).length := by
      rw [h3, h, List.nil_append, length_newDailyRows]
    rw [ensureDailyTasks_ge5 hge, h3, ← h1]

/-- Database in which the quota for 2024-01-01 is already met. -/
def db5 : Db :=
  { emptyDb with
    dailyTasks := [
      ⟨1, "2024-01-01", "practice", "General", "Practice question on General #1", false⟩,
      ⟨2, "2024-01-01", "practice", "General", "Practice question on General #2", false⟩,
      ⟨3, "2024-01-01", "practice", "General", "Practice question on General #3", false⟩,
      ⟨4, "2024-01-01", "revision", "General", "Revision question on General", false⟩,
      ⟨5, "2024-01-01", "concept", "General", "Read a short concept note on General", false⟩],
    nextTaskId := 6 }

/-- Witness for C2: the quota branch on a full day and the double call
from an empty day, at concrete inputs. -/
theorem ensureDailyTasks_idempotent_witness :
    ensureDailyTasks db5 "2024-01-01" = (tasksFor db5 "2024-01-01", db5) ∧
    (ensureDailyTasks emptyDb "2024-01-01").1.length = 5 ∧
    ensureDailyTasks (ensureDailyTasks emptyDb "2024-01-01").2 "2024-01-01" =
      ((ensureDailyTasks emptyDb "2024-01-01").1,
       (ensureDailyTasks emptyDb "2024-01-01").2) :=
  ⟨ensureDailyTasks_idempotent.1 db5 "2024-01-01" (by decide),
   (ensureDailyTasks_idempotent.2 emptyDb "2024-01-01" (by decide)).1,
   (ensureDailyTasks_idempotent.2 emptyDb "2024-01-01" (by decide)).2⟩

/-- Database left behind by a run that failed after persisting only 1 of
its 5 tasks for 2024-01-01. -/
def dbPartial : Db :=
  { emptyDb with
    dailyTasks := [⟨1, "2024-01-01", "practice", "General",
      "Practice question on General #1", false⟩],
    nextTaskId := 2 }

/-- C6 counterexample: retrying after a partial failure that left 1 task
for the day yields 6 tasks for that day, not 5 — the retry inserts a full
new batch of 5 instead of topping up to the quota. -/
theorem retry_after_partial_failure_counterexample :
    (tasksFor dbPartial "2024-01-01").length = 1 ∧
    (tasksFor (ensureDailyTasks dbPartial "2024-01-01").2 "2024-01-01").length = 6 :=
  ⟨by decide, by decide⟩

/-- C6 amended: a successful retry from a day holding k < 5 leftover tasks
inserts a full batch of 5 more, so k + 5 tasks exist afterwards; the count
is exactly 5 only when the failed run persisted nothing (k = 0). -/
theorem retry_topup_adds_five (db : Db) (D : String)
    (h : (tasksFor db D).length < 5) :
    (tasksFor (ensureDailyTasks db D).2 D).length = (tasksFor db D).length + 5 := by
  have hlt : ¬ 5 ≤ (tasksFor db D).length := by omega
  obtain ⟨_, _, h3⟩ := ensureDailyTasks_lt5 hlt
  rw [h3, List.length_append, length_newDailyRows]

/-- Witness for the amended C6 at the partially persisted store. -/
theorem retry_topup_adds_five_witness :
    (tasksFor (ensureDailyTasks dbPartial "2024-01-01").2 "2024-01-01").length =
      (tasksFor dbPartial "2024-01-01").length + 5 :=
  retry_topup_adds_five dbPartial "2024-01-01" (by decide)

/-- C7: a `/ask-doubt` request whose `messages` field is missing or an
empty array is rejected with the 400 error "Messages required", and the
database is returned exactly as it was — no Doubt row is inserted and no
WeakTopic row is created or incremented. -/
theorem askDoubt_empty_messages_rejected :
    (∀ db image_url aiContent now,
      askDoubt db none image_url aiContent now = (.badRequest "Messages required", db)) ∧
    (∀ db image_url aiContent now,
      askDoubt db (some []) image_url aiContent now = (.badRequest "Messages required", db)) :=
  ⟨fun _ _ _ _ => rfl, fun _ _ _ _ => rfl⟩

/-- Rows of the weak-topic store after a scorer call are either old rows
or carry the recorded topic. -/
theorem mem_recordOccurrence {db : Db} {t now : String}
    (hids : (db.weakTopics.map WeakTopic.id).Nodup) :
    ∀ w ∈ (recordOccurrence db t now).weakTopics, w ∈ db.weakTopics ∨ w.topic = t := by
  intro w hw
  cases hfind : findWeakTopic db t with
  | none =>
    rw [recordOccurrence_insert db t now hfind] at hw
    rcases List.mem_append.mp hw with h | h
    · exact Or.inl h
    · right
      rw [List.mem_singleton.mp h]
  | some r =>
    obtain ⟨hft, l1, l2, hsplit, hres, _, _, _⟩ := recordOccurrence_update db t now r hfind hids
    rw [hres] at hw
    rcases List.mem_append.mp hw with h | h
    · left
      rw [hsplit]
      exact List.mem_append_left _ h
    · rcases List.mem_cons.mp h with h | h
      · right
        rw [h]
        exact hft
      · left
        rw [hsplit]
        exact List.mem_append_right _ (List.mem_cons_of_mem _ h)

/-- C8: `getAIResponse` returns subject "General", topic "General", empty
steps and an empty follow-up question for every completion; consequently
the `/ask-doubt` weak-topic update only ever touches the constant topic
"General" — after any request, every weak-topic row is either an old row
or has topic "General". -/
theorem getAIResponse_constant_general :
    (∀ c, (getAIResponse c).subject = "General" ∧ (getAIResponse c).topic = "General" ∧
      (getAIResponse c).steps = ([] : List String) ∧ (getAIResponse c).followUpQuestion = "") ∧
    (∀ db msgs image_url aiContent now, (db.weakTopics.map WeakTopic.id).Nodup →
      ∀ w ∈ (askDoubt db (some msgs) image_url aiContent now).2.weakTopics,
        w ∈ db.weakTopics ∨ w.topic = "General") := by
  refine ⟨fun c => ⟨rfl, rfl, rfl, rfl⟩, ?_⟩
  intro db msgs iu ai now hids w hw
  by_cases hlen : msgs.length = 0
  · simp only [askDoubt] at hw
    rw [if_pos hlen] at hw
    exact Or.inl hw
  · simp only [askDoubt] at hw
    rw [if_neg hlen] at hw
    exact @mem_recordOccurrence { db with
      doubts := db.doubts ++ [{
        id := db.nextDoubtId,
        question_text := match (msgs.getLastD ⟨"", none⟩).content with
          | some s => if s = "" then none else some s
          | none => none,
        image_url := iu,
        answer := (getAIResponse ai).answer,
        steps := jsonStringifyList (getAIResponse ai).steps,
        subject := jsOrStr (getAIResponse ai).subject "General",
        topic := jsOrStr (getAIResponse ai).topic "General",
        timestamp := now }],
      nextDoubtId := db.nextDoubtId + 1 }
      (jsOrStr (getAIResponse ai).topic "General") now hids w hw

/-- Witness for C8: the constant answer fields at a concrete completion,
and the weak-topic membership property at a concrete request. -/
theorem getAIResponse_constant_general_witness :
    (getAIResponse none).subject = "General" ∧
    ((⟨1, "General", 1, "T"⟩ : WeakTopic) ∈ emptyDb.weakTopics ∨
      WeakTopic.topic ⟨1, "General", 1, "T"⟩ = "General") :=
  ⟨(getAIResponse_constant_general.1 none).1,
   getAIResponse_constant_general.2 emptyDb [⟨"user", some "hi"⟩] none (some "A") "T"
     (by decide) ⟨1, "General", 1, "T"⟩ (by decide)⟩

/-- C10: `POST /complete-task` with any truthy task id responds with
success even when no task with that id exists, and in that case the store
is unchanged (the update matched zero rows); a nonexistent id is never an
error. -/
theorem completeTask_nonexistent_id (db : Db) (n : Nat) (hn : n ≠ 0) :
    (completeTask db (some n)).1 = TaskResult.success ∧
    ((∀ t ∈ db.dailyTasks, t.id ≠ n) → (completeTask db (some n)).2 = db) := by
  constructor
  · simp [completeTask, hn]
  · intro hne
    simp only [completeTask]
    rw [if_neg hn]
    have hmap : db.dailyTasks.map (fun t =>
        if t.id = n then { t with is_completed := true } else t) = db.dailyTasks := by
      rw [List.map_congr_left (fun t ht => if_neg (hne t ht))]
      exact List.map_id _
    rw [hmap]

/-- Witness for C10 at a concrete store and task id. -/
theorem completeTask_nonexistent_id_witness :
    (completeTask emptyDb (some 7)).1 = TaskResult.success ∧
    (completeTask emptyDb (some 7)).2 = emptyDb :=
  ⟨(completeTask_nonexistent_id emptyDb 7 (by decide)).1,
   (completeTask_nonexistent_id emptyDb 7 (by decide)).2 (by decide)⟩
